import Mathlib

/-!
Verification of the timeseries core of the `rpi_server_cockpit` repository.

The development shallowly embeds, as executable Lean definitions:
  * the SQLite-backed timeseries store of `timeseries/db.py`
    (the `timeseries_data` fact table with its `UNIQUE(timeseries_id, timestamp)`
    constraint, `INSERT OR REPLACE` upserts, range / latest / min-max queries,
    and the `external_timeseries` metadata registry);
  * the Largest-Triangle-Three-Buckets downsampler `_downsample_lttb`;
  * the HTTP-facing query and ingestion routes of `timeseries/routes.py`;
  * the timer collector cycle of `timeseries/collector.py`;
  * the gateway streaming state machine of `remote_sensor_client.py`.

Python machine floats are modelled as exact rationals, SQL `NULL` as
`Option.none`, and Python exceptions as `Except` results.  SQL tables are
lists of rows; `ORDER BY timestamp ASC` is modelled by an insertion sort
defined below.  `datetime.now()` is modelled by an explicit clock
`ℕ → ℚ` consumed one tick per evaluation of `datetime.now().timestamp()`.
-/

/-- A Python value as it can reach `TimeseriesDB.insert_datapoint`'s `value`
argument: `None`, a float, an arbitrary-precision int, a string (carrying
the float it parses to, when it parses), or some other non-numeric object. -/
inductive PyVal where
  | none
  | float (q : ℚ)
  | int (n : ℤ)
  | str (parsed : Option ℚ)
  | obj
deriving DecidableEq, Repr

/-- The Python exceptions relevant to the `float(value)` conversion in
`insert_datapoint` / `insert_datapoints_batch`. -/
inductive PyErr where
  | typeError
  | valueError
  | overflowError
deriving DecidableEq, Repr

/-- Python's built-in `float(x)` on the value shapes above.  `float` of a
string succeeds exactly when the string parses as a float (else
`ValueError`); `float` of an int raises `OverflowError` once the int is too
large for a double -- values of magnitude at least `2 ^ 1024` always raise
in CPython, which is the threshold used here; `float` of `None` or of a
non-numeric object raises `TypeError`.  Successful conversions are modelled
exactly (double rounding is not modelled; no claim here depends on it). -/
def pyFloat : PyVal → Except PyErr ℚ
  | .none => .error .typeError
  | .float q => .ok q
  | .int n => if n.natAbs < 2 ^ 1024 then .ok (n : ℚ) else .error .overflowError
  | .str Option.none => .error .valueError
  | .str (some q) => .ok q
  | .obj => .error .typeError

/-- The value-coercion block of `insert_datapoint` (db.py lines 110-117,
identically repeated in `insert_datapoints_batch` lines 147-154):
`None` is kept as SQL `NULL`; otherwise `float(value)` is attempted and
`except (TypeError, ValueError)` coerces those two failures to `NULL`.
Any other exception (notably `OverflowError`) is not caught and
propagates. -/
def coerce_value : PyVal → Except PyErr (Option ℚ)
  | .none => .ok Option.none
  | v =>
    match pyFloat v with
    | .ok q => .ok (some q)
    | .error .typeError => .ok Option.none
    | .error .valueError => .ok Option.none
    | .error .overflowError => .error .overflowError

/-- One row of the `timeseries_data` table (db.py lines 51-59): the
`id INTEGER PRIMARY KEY AUTOINCREMENT` surrogate column is not modelled,
the three payload columns are.  `value REAL` is nullable. -/
structure Row where
  timeseries_id : String
  timestamp : ℚ
  value : Option ℚ
deriving DecidableEq, Repr

/-- The `timeseries_data` table. -/
abbrev Store := List Row

/-- Semantics of
`INSERT OR REPLACE INTO timeseries_data (timeseries_id, timestamp, value)`
under the `UNIQUE(timeseries_id, timestamp)` constraint (db.py line 57):
any existing row with the same `(timeseries_id, timestamp)` key is deleted
and the new row is inserted. -/
def upsertRow (store : Store) (timeseries_id : String) (timestamp : ℚ)
    (value : Option ℚ) : Store :=
  (store.filter fun r =>
    ¬(r.timeseries_id = timeseries_id ∧ r.timestamp = timestamp)) ++
    [⟨timeseries_id, timestamp, value⟩]

/-- `TimeseriesDB.insert_datapoint` (db.py lines 98-129).  `timestamp=None`
defaults to `datetime.now().timestamp()`, modelled by the explicit `now`
argument; the value coercion may raise (see `coerce_value`), in which case
nothing is committed. -/
def insert_datapoint (store : Store) (timeseries_id : String) (value : PyVal)
    (timestamp : Option ℚ) (now : ℚ) : Except PyErr Store :=
  match coerce_value value with
  | .ok fv => .ok (upsertRow store timeseries_id (timestamp.getD now) fv)
  | .error e => .error e

/-- One element of the list passed to `insert_datapoints_batch`: a dict with
`timeseries_id`, `value` and an optional `timestamp` key. -/
structure Datapoint where
  timeseries_id : String
  value : PyVal
  timestamp : Option ℚ
deriving DecidableEq, Repr

/-- The per-datapoint loop of `TimeseriesDB.insert_datapoints_batch`
(db.py lines 142-159).  `dp.get('timestamp', datetime.now().timestamp())`
evaluates `datetime.now()` afresh for every datapoint, which the clock
argument models: datapoint number `k` of the batch draws `clock k`.
An uncaught conversion error aborts before `conn.commit()`, so the open
transaction is rolled back: the caller's store is unchanged, modelled by
returning `Except.error`. -/
def insert_batch_go (clock : ℕ → ℚ) : ℕ → Store → List Datapoint → Except PyErr Store
  | _, store, [] => .ok store
  | k, store, dp :: rest =>
    match coerce_value dp.value with
    | .ok fv =>
        insert_batch_go clock (k + 1)
          (upsertRow store dp.timeseries_id (dp.timestamp.getD (clock k)) fv) rest
    | .error e => .error e

/-- `TimeseriesDB.insert_datapoints_batch` (db.py lines 131-162): all rows
of the batch are upserted inside one transaction. -/
def insert_datapoints_batch (store : Store) (datapoints : List Datapoint)
    (clock : ℕ → ℚ) : Except PyErr Store :=
  insert_batch_go clock 0 store datapoints

/-- A datapoint as returned by the query methods: the
`{'timestamp': ..., 'value': ...}` dicts of db.py. -/
structure DataPoint where
  timestamp : ℚ
  value : Option ℚ
deriving DecidableEq, Repr

/-- Insert a row into a list sorted by ascending timestamp. -/
def insertRowByTs (r : Row) : List Row → List Row
  | [] => [r]
  | x :: xs =>
    if r.timestamp ≤ x.timestamp then r :: x :: xs else x :: insertRowByTs r xs

/-- `ORDER BY timestamp ASC`: a sorted permutation of the selected rows,
realised as an insertion sort. -/
def sortRowsByTs : List Row → List Row
  | [] => []
  | x :: xs => insertRowByTs x (sortRowsByTs xs)

/-- `value if value is not None else 0`: the null-to-zero reading of a
datapoint's value used throughout `_downsample_lttb`. -/
def yval (p : DataPoint) : ℚ := p.value.getD 0

/-- Out-of-range default for list indexing inside the downsampler; all
indexing is proved in bounds, so it is never produced. -/
def dfltPoint : DataPoint := ⟨0, Option.none⟩

/-- `data[j]` inside `_downsample_lttb`. -/
def getP (data : List DataPoint) (j : ℕ) : DataPoint := data.getD j dfltPoint

/-- `int(i * bucket_size) + 1`, the bucket boundary arithmetic of
`_downsample_lttb` (all the `int(...)` arguments are nonnegative, so
Python's truncation is the floor). -/
def bucketIdx (b : ℚ) (i : ℕ) : ℕ := (⌊(i : ℚ) * b⌋).toNat + 1

/-- The averaged point of the next bucket (db.py lines 228-246): average
of timestamps and of null-as-zero values over
`[int((i+1)*bucket_size)+1, min(int((i+2)*bucket_size)+1, len(data)))`,
falling back to the last data point when that range is empty. -/
def avgPoint (data : List DataPoint) (b : ℚ) (i : ℕ) : ℚ × ℚ :=
  let n := data.length
  let s := bucketIdx b (i + 1)
  let e := min (bucketIdx b (i + 2)) n
  if s < e then
    let idxs := List.range' s (e - s)
    (((idxs.map fun j => (getP data j).timestamp).sum) / ((e - s : ℕ) : ℚ),
     ((idxs.map fun j => yval (getP data j)).sum) / ((e - s : ℕ) : ℚ))
  else
    ((getP data (n - 1)).timestamp, yval (getP data (n - 1)))

/-- The shoelace triangle area of db.py lines 264-267. -/
def triArea (ax ay avx avy px py : ℚ) : ℚ :=
  |(ax - avx) * (py - ay) - (ax - px) * (avy - ay)| * (1 / 2)

/-- The inner candidate scan of db.py lines 256-271: over
`range(range_offs, min(range_to, len(data)))`, keep the index of the
largest triangle area (strict `>`, first maximum wins), starting from
`(max_area, max_area_point) = (-1, range_offs)`. -/
def chooseIdx (data : List DataPoint) (b : ℚ) (ax ay avx avy : ℚ) (i : ℕ) : ℕ :=
  let n := data.length
  let offs := bucketIdx b i
  let to_ := min (bucketIdx b (i + 1)) n
  let cands := List.range' offs (to_ - offs)
  (cands.foldl
    (fun (acc : ℚ × ℕ) j =>
      let p := getP data j
      let area := triArea ax ay avx avy p.timestamp (yval p)
      if area > acc.1 then (area, j) else acc)
    (-1, offs)).2

/-- One iteration of the main loop of `_downsample_lttb` (db.py lines
227-273).  The state carries the `sampled` accumulator together with the
index of its last element: in the source, point A is `sampled[-1]`, which
is always `data[previously chosen index]` (initially `data[0]`), so the
index representation is exact. -/
def lttbStep (data : List DataPoint) (b : ℚ) (st : ℕ × List DataPoint)
    (i : ℕ) : ℕ × List DataPoint :=
  let av := avgPoint data b i
  let a := getP data st.1
  let j := chooseIdx data b a.timestamp (yval a) av.1 av.2 i
  (j, st.2 ++ [getP data j])

/-- `TimeseriesDB._downsample_lttb` (db.py lines 202-278).  The threshold
is an arbitrary Python int, hence `ℤ`. -/
def downsample_lttb (data : List DataPoint) (threshold : ℤ) : List DataPoint :=
  if (data.length : ℤ) ≤ threshold ∨ threshold < 3 then data
  else
    let n := data.length
    let b : ℚ := ((n : ℚ) - 2) / ((threshold : ℚ) - 2)
    let st := (List.range (threshold - 2).toNat).foldl (lttbStep data b)
      (0, [getP data 0])
    st.2 ++ [getP data (n - 1)]

/-- `TimeseriesDB.query_range` (db.py lines 164-200): select the series'
rows with `start_time <= timestamp <= end_time` (inclusive bounds), in
ascending timestamp order; `if max_points and len(data) > max_points`
(Python truthiness: `max_points` must be non-None and nonzero) apply the
LTTB downsampler. -/
def query_range (store : Store) (timeseries_id : String) (start_time end_time : ℚ)
    (max_points : Option ℤ) : List DataPoint :=
  let rows := sortRowsByTs (store.filter fun r =>
    r.timeseries_id = timeseries_id ∧ start_time ≤ r.timestamp ∧
      r.timestamp ≤ end_time)
  let data := rows.map fun r => DataPoint.mk r.timestamp r.value
  match max_points with
  | some m => if m ≠ 0 ∧ (data.length : ℤ) > m then downsample_lttb data m else data
  | Option.none => data

/-- `TimeseriesDB.query_latest` (db.py lines 280-309): the series' rows in
descending timestamp order, `LIMIT limit` (a negative SQLite `LIMIT` means
no limit), then reversed back to chronological order. -/
def query_latest (store : Store) (timeseries_id : String) (limit : ℤ) :
    List DataPoint :=
  let desc := (sortRowsByTs (store.filter fun r =>
    r.timeseries_id = timeseries_id)).reverse
  let limited := if limit < 0 then desc else desc.take limit.toNat
  (limited.map fun r => DataPoint.mk r.timestamp r.value).reverse

/-- The row filter shared by `query_minmax` and `query_minmax_batch`
(db.py lines 590-594 and 625-640): in the series, inside the inclusive
time range, and `value IS NOT NULL`. -/
def nonNullInRange (timeseries_id : String) (start_time end_time : ℚ)
    (r : Row) : Prop :=
  r.timeseries_id = timeseries_id ∧ start_time ≤ r.timestamp ∧
    r.timestamp ≤ end_time ∧ r.value ≠ Option.none

instance (timeseries_id : String) (start_time end_time : ℚ) (r : Row) :
    Decidable (nonNullInRange timeseries_id start_time end_time r) := by
  unfold nonNullInRange; infer_instance

/-- `TimeseriesDB.query_minmax` (db.py lines 574-604): SQL `MIN(value)` /
`MAX(value)` over the non-null rows in range; the SQL aggregates of an
empty selection are `NULL`, and the method then returns `None`. -/
def query_minmax (store : Store) (timeseries_id : String)
    (start_time end_time : ℚ) : Option (ℚ × ℚ) :=
  let vals := (store.filter
    (nonNullInRange timeseries_id start_time end_time ·)).filterMap (·.value)
  match vals with
  | [] => Option.none
  | v :: vs => some (vs.foldl min v, vs.foldl max v)

/-- The `oldest` sub-query of `query_minmax_batch` (db.py lines 634-642):
the value of the first row of the non-null in-range selection
`ORDER BY timestamp ASC LIMIT 1`. -/
def oldestVal (store : Store) (timeseries_id : String)
    (start_time end_time : ℚ) : Option ℚ :=
  (sortRowsByTs (store.filter
    (nonNullInRange timeseries_id start_time end_time ·))).head?.bind (·.value)

/-- `TimeseriesDB.query_minmax_batch` (db.py lines 606-651): per requested
series, the min/max aggregate; series with no non-null rows in range are
omitted from the result dict, the others also carry `oldest`. -/
def query_minmax_batch (store : Store) (timeseries_ids : List String)
    (start_time end_time : ℚ) : List (String × ℚ × ℚ × Option ℚ) :=
  timeseries_ids.filterMap fun ts_id =>
    match query_minmax store ts_id start_time end_time with
    | Option.none => Option.none
    | some (mn, mx) => some (ts_id, mn, mx, oldestVal store ts_id start_time end_time)

/-- One row of the `external_timeseries` metadata table
(db.py lines 82-92). -/
structure ExtRow where
  id : String
  name : String
  units : String
  category : String
  tags : List String
  description : String
  gateway : Option String
deriving DecidableEq, Repr

/-- The `external_timeseries` table. -/
abbrev ExtTable := List ExtRow

/-- `TimeseriesDB.register_external_timeseries` (db.py lines 453-489):
check whether the id already exists, `INSERT OR REPLACE` the metadata row
(the table's primary key is `id`), and return `True` iff the row is newly
created.  The method performs no check of any kind against built-in series
ids. -/
def register_external_timeseries (ext : ExtTable) (timeseries_id : String)
    (name : String) (units : String) (category : String) (tags : List String)
    (description : String) (gateway : Option String) : ExtTable × Bool :=
  let existed := (ext.find? fun r => r.id = timeseries_id).isSome
  ((ext.filter fun r => ¬ r.id = timeseries_id) ++
    [⟨timeseries_id, name, units, category, tags, description, gateway⟩],
   !existed)

/-- `TimeseriesDB.get_external_timeseries` (db.py lines 491-522):
metadata lookup by primary key. -/
def get_external_timeseries (ext : ExtTable) (timeseries_id : String) :
    Option ExtRow :=
  ext.find? fun r => r.id = timeseries_id

/-- A built-in series of `timeseries/config.py`: the statically defined
metadata of one `TimeseriesBase` subclass. -/
structure TimeseriesBase where
  name : String
  units : String
  category : String
  tags : List String
  description : String
deriving DecidableEq, Repr

/-- `TimeseriesBase.getId` (config.py lines 73-82):
`name.lower().replace(' ', '_').replace('(', '').replace(')', '')`.
All three `replace` patterns are single characters, so the transformation
is modelled character-wise on the string's character list (`str.lower` is
per-character lowercasing for these ASCII names). -/
def ts_getId (ts : TimeseriesBase) : String :=
  ⟨((ts.name.data.map Char.toLower).map fun c =>
      if c = ' ' then '_' else c).filter fun c => ¬(c = '(' ∨ c = ')')⟩

/-- The `TIMESERIES` registry of config.py: the five concrete
`TimeseriesBase` subclasses defined there (lines 117-257), auto-discovered
in definition order. -/
def TIMESERIES : List TimeseriesBase :=
  [⟨"CPU Temperature", "°F", "Temperature",
    ["cpu", "temperature", "thermal", "system"], "Current CPU core temperature"⟩,
   ⟨"GPU Temperature", "°F", "Temperature",
    ["gpu", "temperature", "thermal", "graphics"], "Current GPU core temperature"⟩,
   ⟨"CPU Usage", "%", "System Resources",
    ["cpu", "usage", "performance", "system", "load"], "CPU utilization percentage"⟩,
   ⟨"RAM Usage", "%", "System Resources",
    ["ram", "memory", "usage", "system"], "RAM memory utilization percentage"⟩,
   ⟨"Disk Usage", "%", "Storage",
    ["disk", "storage", "usage", "filesystem"], "Root filesystem disk usage percentage"⟩]

/-- `get_timeseries` (config.py lines 284-286): `TIMESERIES_MAP.get(id)`,
where `TIMESERIES_MAP` indexes `TIMESERIES` by `getId` (the five ids are
distinct, so dict lookup coincides with first-match search). -/
def get_timeseries (timeseries_id : String) : Option TimeseriesBase :=
  TIMESERIES.find? fun ts => ts_getId ts = timeseries_id

/-- The JSON body of a single-datapoint `/api/timeseries/ingest` request
(routes.py lines 298-304): `data.get(...)` of each field.  A JSON `null`
and an absent key both surface as Python `None`, i.e. `Option.none`. -/
structure IngestRequest where
  id : Option String
  name : Option String
  units : Option String
  value : Option PyVal
  timestamp : Option ℚ
  category : Option String
  tags : Option (List String)
  description : Option String
  gateway : Option String

/-- Outcome of the ingest route: success with a count, an HTTP 400
rejection carrying the error string, or an unhandled exception
(HTTP 500). -/
inductive IngestResult where
  | ok (count : ℕ)
  | badRequest (error : String)
  | serverError
deriving DecidableEq, Repr

/-- The single-datapoint path of `ingest_timeseries_data`
(routes.py lines 298-331): missing-field rejections (`if not
timeseries_id` / `if not name` are Python truthiness, so the empty string
is also rejected; `units` and `value` are `is None` checks), then the
built-in conflict rejection, then auto-registration of the external
metadata followed by the datapoint insert.  Returns (external table,
store, result). -/
def ingest_timeseries_data (ext : ExtTable) (store : Store)
    (req : IngestRequest) (now : ℚ) : ExtTable × Store × IngestResult :=
  let tid := req.id.getD ""
  if tid = "" then (ext, store, .badRequest "Missing id")
  else
    let nm := req.name.getD ""
    if nm = "" then (ext, store, .badRequest "Missing name")
    else
      match req.units with
      | Option.none => (ext, store, .badRequest "Missing units")
      | some u =>
        match req.value with
        | Option.none => (ext, store, .badRequest "Missing value")
        | some v =>
          if (get_timeseries tid).isSome then
            (ext, store,
             .badRequest ("ID \"" ++ tid ++ "\" conflicts with a built-in timeseries"))
          else
            let ext' := (register_external_timeseries ext tid nm u
              (req.category.getD "External") (req.tags.getD [])
              (req.description.getD "") req.gateway).1
            match insert_datapoint store tid v req.timestamp now with
            | .ok store' => (ext', store', .ok 1)
            | .error _ => (ext', store, .serverError)

/-- One entry of a data-route response: the
`{'id': ..., 'name': ..., 'units': ..., 'data': ...}` objects of
routes.py. -/
structure SeriesData where
  id : String
  name : String
  units : String
  data : List DataPoint
deriving DecidableEq, Repr

/-- Response of the single-series data route: 200 with the payload or the
404 `{'error': 'Timeseries not found'}`. -/
inductive DataResponse where
  | ok (payload : SeriesData)
  | notFound
deriving DecidableEq, Repr

/-- `get_timeseries_data` (routes.py lines 47-94): resolve the id against
the built-ins first, then against the external registry, else 404; with
both `start` and `end` present it is a range query (no downsampling on
this route), otherwise a latest-`limit` query (default 1000). -/
def get_timeseries_data (ext : ExtTable) (store : Store)
    (timeseries_id : String) (start_time end_time : Option ℚ) (limit : ℤ) :
    DataResponse :=
  let fetch : List DataPoint :=
    match start_time, end_time with
    | some s, some e => query_range store timeseries_id s e Option.none
    | _, _ => query_latest store timeseries_id limit
  match get_timeseries timeseries_id with
  | some ts => .ok ⟨timeseries_id, ts.name, ts.units, fetch⟩
  | Option.none =>
    match get_external_timeseries ext timeseries_id with
    | some e => .ok ⟨timeseries_id, e.name, e.units, fetch⟩
    | Option.none => .notFound

/-- `get_timeseries_data_batch` (routes.py lines 97-151): per requested
id, resolve against built-ins then externals; an unknown id is skipped
(`continue`) rather than rejected, so the response is always a 200 list;
range queries on this route pass `max_datapoints` through to the
downsampler. -/
def get_timeseries_data_batch (ext : ExtTable) (store : Store)
    (timeseries_ids : List String) (start_time end_time : Option ℚ)
    (limit : ℤ) (max_datapoints : Option ℤ) : List SeriesData :=
  timeseries_ids.filterMap fun ts_id =>
    let fetch : List DataPoint :=
      match start_time, end_time with
      | some s, some e => query_range store ts_id s e max_datapoints
      | _, _ => query_latest store ts_id limit
    match get_timeseries ts_id with
    | some ts => some ⟨ts_id, ts.name, ts.units, fetch⟩
    | Option.none =>
      match get_external_timeseries ext ts_id with
      | some e => some ⟨ts_id, e.name, e.units, fetch⟩
      | Option.none => Option.none

/-- Result of one `ts.getCurrentValue()` call as seen by the collector
paths: the accessor either raises (caught and logged by both paths) or
returns a Python value (built-in accessors return a float or `None`). -/
inductive ReadResult where
  | raises
  | returns (v : PyVal)
deriving DecidableEq, Repr

/-- The datapoint list built by one iteration of
`TimeseriesCollector._collection_loop` (collector.py lines 56-66) from
the per-series reads of the cycle: a raising accessor skips only its own
series; every returned value -- `None` included -- is appended, with no
`timestamp` key (so each row is stamped individually inside
`insert_datapoints_batch`).  The loop then issues the single
`insert_datapoints_batch(datapoints)` call (line 70). -/
def collection_cycle_datapoints (reads : List (String × ReadResult)) :
    List Datapoint :=
  reads.filterMap fun sr =>
    match sr.2 with
    | .raises => Option.none
    | .returns v => some ⟨sr.1, v, Option.none⟩

/-- The datapoint list built by the manual `collect_data_now` route
(routes.py lines 362-394): one `timestamp` is computed up front and shared
by every appended datapoint; a raising accessor skips its series; a `None`
read (`if value is not None`) is omitted from the batch. -/
def collect_now_datapoints (reads : List (String × ReadResult))
    (timestamp : ℚ) : List Datapoint :=
  reads.filterMap fun sr =>
    match sr.2 with
    | .raises => Option.none
    | .returns v =>
      if v = PyVal.none then Option.none else some ⟨sr.1, v, some timestamp⟩

/-- One reading dict of a gateway `data` message
(remote_sensor_client.py): id, value, source timestamp. -/
structure Reading where
  id : String
  value : Option ℚ
  ts : ℚ
deriving DecidableEq, Repr

/-- What one received line holds after `parse_message`
(remote_sensor_client.py lines 38-43) and the type dispatch of
`_subscribe_and_stream` (lines 189-197): `malformed` is a line that fails
to parse (or parses to a falsy object), `dataMsg` a `data`-typed message
with its readings, `otherMsg` any other dict message (silently ignored),
and `badTop` a line whose JSON parses to a truthy non-dict (on which
`message.get` raises, an exception `_run` catches as fatal). -/
inductive LineContent where
  | malformed
  | dataMsg (readings : List Reading)
  | otherMsg
  | badTop
deriving DecidableEq, Repr

/-- One result of `_recv_line` (remote_sensor_client.py lines 141-155):
either the socket returned a zero-length read -- the connection is closed,
`_recv_line` returns `None` -- or a newline-terminated line arrived. -/
inductive RecvItem where
  | closed
  | line (content : LineContent)
deriving DecidableEq, Repr

/-- How one streaming epoch ended. -/
inductive StreamExit where
  | connClosed
  | stopped
  | crashed
deriving DecidableEq, Repr

/-- `GatewayConnection._subscribe_and_stream` (remote_sensor_client.py
lines 179-197), driven by the scripted sequence of received items: a
`None` from `_recv_line` raises `ConnectionError("Connection closed")`; a
malformed line is logged and `continue`d; a `data` message with nonempty
readings is handed to `on_data_received`, an empty one is a heartbeat and
ignored; other message types are ignored.  Script exhaustion models the
cooperative stop flag (`while self._running`).  Returns the list of
delivered readings batches and the exit reason. -/
def subscribe_and_stream : List RecvItem → List (List Reading) × StreamExit
  | [] => ([], .stopped)
  | .closed :: _ => ([], .connClosed)
  | .line .malformed :: rest => subscribe_and_stream rest
  | .line .badTop :: _ => ([], .crashed)
  | .line .otherMsg :: rest => subscribe_and_stream rest
  | .line (.dataMsg rs) :: rest =>
    if rs.isEmpty then subscribe_and_stream rest
    else
      let t := subscribe_and_stream rest
      (rs :: t.1, t.2)

/-- Observable events of the connection loop `GatewayConnection._run`
(remote_sensor_client.py lines 103-126). -/
inductive RunEvent where
  | connect
  | dataBatch (readings : List Reading)
  | closeSocket
  | waitReconnect (delay : ℚ)
deriving DecidableEq, Repr

/-- `GatewayConnection._run`: per epoch, connect (with discovery) and
stream; any exception ends the epoch; the `finally` block always closes
the socket; while still running, wait the fixed `reconnect_delay` and
retry from connecting.  The input scripts one received-item list per
connection epoch; a `stopped` exit models `self._running` cleared, after
which no reconnect wait occurs and the loop ends. -/
def run_epochs (reconnect_delay : ℚ) : List (List RecvItem) → List RunEvent
  | [] => []
  | items :: rest =>
    let t := subscribe_and_stream items
    RunEvent.connect :: (t.1.map RunEvent.dataBatch ++ RunEvent.closeSocket ::
      (match t.2 with
       | .stopped => []
       | _ => RunEvent.waitReconnect reconnect_delay ::
           run_epochs reconnect_delay rest))

/-- A write operation against the store: a single `insert_datapoint` call
or an `insert_datapoints_batch` call. -/
inductive InsOp where
  | single (timeseries_id : String) (value : PyVal) (timestamp : Option ℚ)
  | batchOp (datapoints : List Datapoint)

/-- Apply one write operation, each paired with its own `datetime.now()`
clock; an uncommitted (raising) operation leaves the store unchanged. -/
def apply_insert_op (store : Store) (oc : InsOp × (ℕ → ℚ)) : Store :=
  match oc.1 with
  | .single tid v ts =>
    match insert_datapoint store tid v ts (oc.2 0) with
    | .ok s' => s'
    | .error _ => store
  | .batchOp dps =>
    match insert_datapoints_batch store dps oc.2 with
    | .ok s' => s'
    | .error _ => store

/-- Apply a sequence of insert / insert-batch operations. -/
def apply_insert_ops (store : Store) (ops : List (InsOp × (ℕ → ℚ))) : Store :=
  ops.foldl apply_insert_op store

/-- The store's uniqueness invariant: at most one row per
`(timeseries_id, timestamp)` pair. -/
def KeysDistinct (store : Store) : Prop :=
  store.Pairwise fun r1 r2 =>
    ¬(r1.timeseries_id = r2.timeseries_id ∧ r1.timestamp = r2.timestamp)

instance (store : Store) : Decidable (KeysDistinct store) := by
  unfold KeysDistinct; infer_instance

/-- Number of rows of the store holding the given key. -/
def countKey (store : Store) (timeseries_id : String) (timestamp : ℚ) : ℕ :=
  (store.filter fun r =>
    r.timeseries_id = timeseries_id ∧ r.timestamp = timestamp).length

/-- Concrete five-point series used by witnesses. -/
def lttbSample : List DataPoint :=
  [⟨0, some 1⟩, ⟨1, some 5⟩, ⟨2, Option.none⟩, ⟨3, some 2⟩, ⟨4, some 4⟩]

/-- Concrete store used by witnesses: the end-to-end fixture of the spec
(`s1` at `t0 = 0`, `t0+1`, `t0+2` with values `10.0`, `12.0`, null). -/
def wstore : Store :=
  [⟨"s1", 0, some 10⟩, ⟨"s1", 1, some 12⟩, ⟨"s1", 2, Option.none⟩]

/-- Concrete per-series read results used by collector witnesses. -/
def wreads : List (String × ReadResult) :=
  [("cpu_temperature", ReadResult.returns (PyVal.float 100)),
   ("gpu_temperature", ReadResult.returns PyVal.none),
   ("cpu_usage", ReadResult.raises)]

lemma keysDistinct_upsertRow (store : Store) (tid : String) (ts : ℚ)
    (v : Option ℚ) (h : KeysDistinct store) :
    KeysDistinct (upsertRow store tid ts v) := by
  unfold KeysDistinct upsertRow at *
  rw [List.pairwise_append]
  refine ⟨h.filter _, List.pairwise_singleton _ _, ?_⟩
  intro a ha r hr
  simp only [List.mem_singleton] at hr
  subst hr
  simp only [List.mem_filter, decide_eq_true_eq] at ha
  exact ha.2

lemma keysDistinct_insert_batch_go (clock : ℕ → ℚ) :
    ∀ (dps : List Datapoint) (k : ℕ) (store s' : Store),
      KeysDistinct store → insert_batch_go clock k store dps = .ok s' →
      KeysDistinct s' := by
  intro dps
  induction dps with
  | nil =>
    intro k store s' h heq
    simp only [insert_batch_go, Except.ok.injEq] at heq
    exact heq ▸ h
  | cons dp rest ih =>
    intro k store s' h heq
    rw [insert_batch_go] at heq
    cases hcv : coerce_value dp.value with
    | ok fv =>
      rw [hcv] at heq
      exact ih _ _ _ (keysDistinct_upsertRow _ _ _ _ h) heq
    | error e => rw [hcv] at heq; cases heq

lemma keysDistinct_apply_insert_op (store : Store) (oc : InsOp × (ℕ → ℚ))
    (h : KeysDistinct store) : KeysDistinct (apply_insert_op store oc) := by
  rcases oc with ⟨op, clock⟩
  cases op with
  | single tid v ts =>
    simp only [apply_insert_op]
    cases hins : insert_datapoint store tid v ts (clock 0) with
    | ok s' =>
      have hs' : KeysDistinct s' := by
        rw [insert_datapoint] at hins
        cases hcv : coerce_value v with
        | ok fv =>
          rw [hcv] at hins
          simp only [Except.ok.injEq] at hins
          exact hins ▸ keysDistinct_upsertRow _ _ _ _ h
        | error e => rw [hcv] at hins; cases hins
      exact hs'
    | error e => exact h
  | batchOp dps =>
    simp only [apply_insert_op]
    cases hins : insert_datapoints_batch store dps clock with
    | ok s' => exact keysDistinct_insert_batch_go clock dps 0 store s' h hins
    | error e => exact h

lemma keysDistinct_apply_insert_ops (ops : List (InsOp × (ℕ → ℚ))) :
    ∀ store : Store, KeysDistinct store →
      KeysDistinct (apply_insert_ops store ops) := by
  induction ops with
  | nil => intro store h; simpa [apply_insert_ops] using h
  | cons oc rest ih =>
    intro store h
    rw [apply_insert_ops, List.foldl_cons]
    exact ih _ (keysDistinct_apply_insert_op store oc h)

lemma upsertRow_upsertRow (store : Store) (tid : String) (ts : ℚ)
    (v v' : Option ℚ) :
    upsertRow (upsertRow store tid ts v) tid ts v' =
      (store.filter fun r =>
        ¬(r.timeseries_id = tid ∧ r.timestamp = ts)) ++ [⟨tid, ts, v'⟩] := by
  unfold upsertRow
  rw [List.filter_append,
    List.filter_eq_self.mpr fun a ha => (List.mem_filter.mp ha).2]
  simp

lemma countKey_upsertRow (store : Store) (tid : String) (ts : ℚ)
    (v : Option ℚ) : countKey (upsertRow store tid ts v) tid ts = 1 := by
  unfold countKey upsertRow
  rw [List.filter_append]
  have h1 : (store.filter fun r =>
      ¬(r.timeseries_id = tid ∧ r.timestamp = ts)).filter
      (fun r => r.timeseries_id = tid ∧ r.timestamp = ts) = [] := by
    rw [List.filter_eq_nil_iff]
    intro a ha
    simp only [List.mem_filter, decide_eq_true_eq] at ha ⊢
    exact ha.2
  rw [h1]
  simp

lemma query_range_after_replace (store : Store) (tid : String) (ts : ℚ)
    (v v' : Option ℚ) :
    query_range (upsertRow (upsertRow store tid ts v) tid ts v') tid ts ts
      Option.none = [⟨ts, v'⟩] := by
  rw [upsertRow_upsertRow]
  unfold query_range
  rw [List.filter_append]
  have h1 : (store.filter fun r =>
      ¬(r.timeseries_id = tid ∧ r.timestamp = ts)).filter
      (fun r => r.timeseries_id = tid ∧ ts ≤ r.timestamp ∧ r.timestamp ≤ ts) =
      [] := by
    rw [List.filter_eq_nil_iff]
    intro a ha
    simp only [List.mem_filter, decide_eq_true_eq] at ha ⊢
    intro hq
    exact ha.2 ⟨hq.1, le_antisymm hq.2.2 hq.2.1⟩
  rw [h1]
  simp [sortRowsByTs, insertRowByTs]

/-- C1: the store holds at most one row per `(series_id, timestamp)` pair
after any sequence of insert / insert-batch operations; inserting the same
`(series_id, timestamp, value)` twice yields exactly one row for that key
(the second upsert is the identity); a `value`-carrying insert is a total
upsert (it returns `ok`, never an error); and after writing a different
value at the same `(series_id, timestamp)`, `query_range` over that
timestamp returns only the latest value. -/
theorem store_unique_per_key :
    (∀ ops : List (InsOp × (ℕ → ℚ)), KeysDistinct (apply_insert_ops [] ops)) ∧
    (∀ (store : Store) (tid : String) (q ts now : ℚ),
      insert_datapoint store tid (PyVal.float q) (some ts) now =
        Except.ok (upsertRow store tid ts (some q))) ∧
    (∀ (store : Store) (tid : String) (ts : ℚ) (v : Option ℚ),
      upsertRow (upsertRow store tid ts v) tid ts v =
        upsertRow store tid ts v) ∧
    (∀ (store : Store) (tid : String) (ts : ℚ) (v : Option ℚ),
      countKey (upsertRow store tid ts v) tid ts = 1) ∧
    (∀ (store : Store) (tid : String) (ts : ℚ) (v v' : Option ℚ),
      query_range (upsertRow (upsertRow store tid ts v) tid ts v') tid ts ts
        Option.none = [⟨ts, v'⟩]) := by
  refine ⟨fun ops => keysDistinct_apply_insert_ops ops [] List.Pairwise.nil,
    fun store tid q ts now => rfl,
    fun store tid ts v => ?_, countKey_upsertRow, query_range_after_replace⟩
  rw [upsertRow_upsertRow]
  rfl

lemma foldl_range_inv {α : Type} (f : α → ℕ → α) (P : ℕ → α → Prop) :
    ∀ (m : ℕ) (init : α), P 0 init →
      (∀ i a, i < m → P i a → P (i + 1) (f a i)) →
      P m ((List.range m).foldl f init) := by
  intro m
  induction m with
  | zero => intro init h0 _; simpa using h0
  | succ k ih =>
    intro init h0 hstep
    rw [List.range_succ, List.foldl_append, List.foldl_cons, List.foldl_nil]
    exact hstep k _ (Nat.lt_succ_self k)
      (ih init h0 fun i a hi => hstep i a (Nat.lt_succ_of_lt hi))

lemma bucketIdx_lt_succ {b : ℚ} (hb : 1 < b) (i : ℕ) :
    bucketIdx b i < bucketIdx b (i + 1) := by
  have hnn : (0 : ℚ) ≤ (i : ℚ) * b :=
    mul_nonneg (Nat.cast_nonneg i) (le_of_lt (lt_trans one_pos hb))
  have h0 : (0 : ℤ) ≤ ⌊(i : ℚ) * b⌋ := Int.floor_nonneg.mpr hnn
  have hle : (i : ℚ) * b + 1 ≤ ((i : ℕ) + 1 : ℚ) * b := by ring_nf; nlinarith
  have hfl : ⌊(i : ℚ) * b⌋ + 1 ≤ ⌊(((i : ℕ) + 1 : ℕ) : ℚ) * b⌋ := by
    have := Int.floor_le_floor hle
    rw [Int.floor_add_one] at this
    convert this using 3
    push_cast
    ring
  unfold bucketIdx
  omega

lemma bucketIdx_le_of_mul_le {b : ℚ} (hb0 : 0 ≤ b) {n T i : ℕ}
    (hbu : ((T : ℚ) - 2) * b ≤ (n : ℚ) - 2) (hi : i + 2 ≤ T) (hn2 : 2 ≤ n) :
    bucketIdx b i ≤ n - 1 := by
  have hiq : (i : ℚ) ≤ (T : ℚ) - 2 := by
    have : ((i + 2 : ℕ) : ℚ) ≤ (T : ℚ) := Nat.cast_le.mpr hi
    push_cast at this
    linarith
  have hmul : (i : ℚ) * b ≤ (n : ℚ) - 2 :=
    le_trans (mul_le_mul_of_nonneg_right hiq hb0) hbu
  have hfl : ⌊(i : ℚ) * b⌋ ≤ (n : ℤ) - 2 := by
    have h2 : ((n : ℚ) - 2) = (((n : ℤ) - 2 : ℤ) : ℚ) := by push_cast; ring
    have := Int.floor_le_floor (hmul.trans (le_of_eq h2))
    rwa [Int.floor_intCast] at this
  have h0 : (0 : ℤ) ≤ ⌊(i : ℚ) * b⌋ :=
    Int.floor_nonneg.mpr (mul_nonneg (Nat.cast_nonneg i) hb0)
  unfold bucketIdx
  omega

lemma foldl_pick_mem (f : ℚ × ℕ → ℕ → ℚ × ℕ)
    (hf : ∀ acc j, (f acc j).2 = j ∨ f acc j = acc) :
    ∀ (l : List ℕ) (acc : ℚ × ℕ),
      (l.foldl f acc).2 = acc.2 ∨ (l.foldl f acc).2 ∈ l := by
  intro l
  induction l with
  | nil => intro acc; left; rfl
  | cons j js ih =>
    intro acc
    rw [List.foldl_cons]
    rcases ih (f acc j) with h | h
    · rcases hf acc j with h2 | h2
      · right; rw [h, h2]; exact List.mem_cons_self _ _
      · left; rw [h, h2]
    · right; exact List.mem_cons_of_mem _ h

lemma chooseIdx_cases (data : List DataPoint) (b ax ay avx avy : ℚ) (i : ℕ) :
    chooseIdx data b ax ay avx avy i = bucketIdx b i ∨
      (bucketIdx b i ≤ chooseIdx data b ax ay avx avy i ∧
       chooseIdx data b ax ay avx avy i < min (bucketIdx b (i + 1)) data.length) := by
  have h := foldl_pick_mem
    (fun (acc : ℚ × ℕ) (j : ℕ) =>
      let p := getP data j
      let area := triArea ax ay avx avy p.timestamp (yval p)
      if area > acc.1 then (area, j) else acc)
    (by
      intro acc j
      simp only
      split
      · left; rfl
      · right; rfl)
    (List.range' (bucketIdx b i)
      (min (bucketIdx b (i + 1)) data.length - bucketIdx b i))
    ((-1 : ℚ), bucketIdx b i)
  have he : chooseIdx data b ax ay avx avy i =
      ((List.range' (bucketIdx b i)
        (min (bucketIdx b (i + 1)) data.length - bucketIdx b i)).foldl
        (fun (acc : ℚ × ℕ) (j : ℕ) =>
          let p := getP data j
          let area := triArea ax ay avx avy p.timestamp (yval p)
          if area > acc.1 then (area, j) else acc)
        ((-1 : ℚ), bucketIdx b i)).2 := rfl
  rw [he]
  rcases h with h | h
  · left; exact h
  · right
    rw [List.mem_range'_1] at h
    omega

lemma take_one_getP (l : List DataPoint) (h : l ≠ []) : l.take 1 = [getP l 0] := by
  cases l with
  | nil => exact absurd rfl h
  | cons a t => simp [getP]

lemma head?_eq_getP (l : List DataPoint) (h : l ≠ []) :
    l.head? = some (getP l 0) := by
  cases l with
  | nil => exact absurd rfl h
  | cons a t => simp [getP]

lemma getLast?_eq_getP (l : List DataPoint) (h : l ≠ []) :
    l.getLast? = some (getP l (l.length - 1)) := by
  induction l with
  | nil => exact absurd rfl h
  | cons a t ih =>
    cases t with
    | nil => simp [getP]
    | cons c u =>
      rw [List.getLast?_cons_cons, ih (by simp)]
      simp [getP, List.getD_cons_succ]

lemma take_sublist_take (l : List DataPoint) {m n : ℕ} (h : m ≤ n) :
    (l.take m).Sublist (l.take n) := by
  have heq : l.take m = (l.take n).take m := by
    rw [List.take_take, Nat.min_eq_left h]
  rw [heq]
  exact List.take_sublist m (l.take n)

lemma take_succ_getP (l : List DataPoint) {j : ℕ} (h : j < l.length) :
    l.take (j + 1) = l.take j ++ [getP l j] := by
  rw [List.take_succ, List.getElem?_eq_getElem h, getP,
    List.getD_eq_getElem l dfltPoint h]
  rfl

lemma lttbStep_inv (data : List DataPoint) (b : ℚ) {T : ℕ} (hb : 1 < b)
    (hup : ∀ i', i' + 2 ≤ T → bucketIdx b i' ≤ data.length - 1)
    (hT : 3 ≤ T) (hn : T < data.length)
    {i : ℕ} (hi : i < T - 2) {st : ℕ × List DataPoint}
    (h : st.1 + 1 ≤ bucketIdx b i ∧ st.2.Sublist (List.take (st.1 + 1) data)) :
    (lttbStep data b st i).1 + 1 ≤ bucketIdx b (i + 1) ∧
      (lttbStep data b st i).2.Sublist
        (List.take ((lttbStep data b st i).1 + 1) data) := by
  obtain ⟨h1, h2⟩ := h
  have hstep : lttbStep data b st i =
      (chooseIdx data b (getP data st.1).timestamp (yval (getP data st.1))
        (avgPoint data b i).1 (avgPoint data b i).2 i,
       st.2 ++ [getP data (chooseIdx data b (getP data st.1).timestamp
        (yval (getP data st.1)) (avgPoint data b i).1 (avgPoint data b i).2 i)]) :=
    rfl
  set J := chooseIdx data b (getP data st.1).timestamp (yval (getP data st.1))
    (avgPoint data b i).1 (avgPoint data b i).2 i with hJ
  have hlt : bucketIdx b i < bucketIdx b (i + 1) := bucketIdx_lt_succ hb i
  have hto : bucketIdx b (i + 1) ≤ data.length - 1 := hup (i + 1) (by omega)
  have hoffs : bucketIdx b i ≤ data.length - 1 := hup i (by omega)
  have hJfacts : bucketIdx b i ≤ J ∧ J + 1 ≤ bucketIdx b (i + 1) ∧
      J < data.length := by
    rcases chooseIdx_cases data b (getP data st.1).timestamp
        (yval (getP data st.1)) (avgPoint data b i).1 (avgPoint data b i).2 i
      with hc | hc
    · rw [← hJ] at hc; omega
    · rw [← hJ] at hc; omega
  rw [hstep]
  refine ⟨hJfacts.2.1, ?_⟩
  have hsub1 : st.2.Sublist (List.take J data) :=
    h2.trans (take_sublist_take data (by omega))
  have hsub2 : (st.2 ++ [getP data J]).Sublist
      (List.take J data ++ [getP data J]) :=
    hsub1.append (List.Sublist.refl _)
  rw [take_succ_getP data hJfacts.2.2]
  exact hsub2

lemma head?_append_of_ne_nil {α : Type} (l r : List α) (h : l ≠ []) :
    (l ++ r).head? = l.head? := by
  cases l with
  | nil => exact absurd rfl h
  | cons a t => rfl

lemma downsample_lttb_spec_aux (data : List DataPoint) (threshold : ℤ)
    (h3 : 3 ≤ threshold) (hlen : threshold < (data.length : ℤ)) :
    (downsample_lttb data threshold).length = threshold.toNat ∧
    (downsample_lttb data threshold).head? = some (getP data 0) ∧
    (downsample_lttb data threshold).getLast? =
      some (getP data (data.length - 1)) ∧
    (downsample_lttb data threshold).Sublist data := by
  have hT3 : 3 ≤ threshold.toNat := by omega
  have hTn : threshold.toNat < data.length := by omega
  have hne : data ≠ [] := by
    intro hnil
    rw [hnil] at hTn
    simp at hTn
  have hcond : ¬((data.length : ℤ) ≤ threshold ∨ threshold < 3) := by omega
  set T := threshold.toNat with hTdef
  set B : ℚ := ((data.length : ℚ) - 2) / ((threshold : ℚ) - 2) with hB
  have hE : downsample_lttb data threshold =
      ((List.range (threshold - 2).toNat).foldl (lttbStep data B)
        (0, [getP data 0])).2 ++ [getP data (data.length - 1)] := by
    rw [downsample_lttb, if_neg hcond]
  have hm : (threshold - 2).toNat = T - 2 := by omega
  rw [hm] at hE
  have hqT : (threshold : ℚ) = (T : ℚ) := by
    have hz : threshold = (T : ℤ) := by omega
    rw [hz]
    push_cast
    ring
  have hden : (0 : ℚ) < (threshold : ℚ) - 2 := by
    rw [hqT]
    have : (3 : ℚ) ≤ (T : ℚ) := by exact_mod_cast hT3
    linarith
  have hb : 1 < B := by
    rw [hB, one_lt_div hden]
    have h1 : ((threshold : ℤ) : ℚ) < ((data.length : ℕ) : ℚ) := by
      exact_mod_cast hlen
    linarith
  have hup : ∀ i', i' + 2 ≤ T → bucketIdx B i' ≤ data.length - 1 := by
    intro i' hi'
    refine bucketIdx_le_of_mul_le (le_of_lt (lt_trans one_pos hb)) ?_ hi'
      (by omega)
    rw [hB, hqT]
    rw [mul_comm, div_mul_cancel₀]
    rw [hqT] at hden
    exact ne_of_gt hden
  have hinv := foldl_range_inv (lttbStep data B)
    (fun i st => st.1 + 1 ≤ bucketIdx B i ∧
      st.2.Sublist (List.take (st.1 + 1) data))
    (T - 2) (0, [getP data 0])
    (by
      constructor
      · simp [bucketIdx]
      · show ([getP data 0] : List DataPoint).Sublist (List.take 1 data)
        rw [take_one_getP data hne])
    (fun i a hi hP => lttbStep_inv data B hb hup hT3 hTn (by omega) hP)
  have hlh := foldl_range_inv (lttbStep data B)
    (fun i st => st.2.length = i + 1 ∧ st.2.head? = some (getP data 0))
    (T - 2) (0, [getP data 0]) ⟨rfl, rfl⟩
    (by
      intro i a hi hP
      obtain ⟨hl, hh⟩ := hP
      have hne2 : a.2 ≠ [] := by
        intro h0
        rw [h0] at hl
        simp at hl
      constructor
      · simp [lttbStep, hl]
      · simp only [lttbStep]
        rw [head?_append_of_ne_nil _ _ hne2, hh])
  set st := (List.range (T - 2)).foldl (lttbStep data B) (0, [getP data 0])
    with hst
  obtain ⟨hfin1, hfin2⟩ := hinv
  obtain ⟨hlh1, hlh2⟩ := hlh
  have hstne : st.2 ≠ [] := by
    intro h0
    rw [h0] at hlh1
    simp at hlh1
  have hlast : st.1 + 1 ≤ data.length - 1 :=
    le_trans hfin1 (hup (T - 2) (by omega))
  refine ⟨?_, ?_, ?_, ?_⟩
  · rw [hE, List.length_append, hlh1]
    simp
    omega
  · rw [hE, head?_append_of_ne_nil _ _ hstne, hlh2]
  · rw [hE, List.getLast?_concat]
  · have h4 : (st.2 ++ [getP data (data.length - 1)]).Sublist
        (List.take (data.length - 1) data ++ [getP data (data.length - 1)]) :=
      (hfin2.trans (take_sublist_take data hlast)).append (List.Sublist.refl _)
    have h5 : List.take (data.length - 1) data ++
        [getP data (data.length - 1)] = data := by
      rw [← take_succ_getP data (by omega : data.length - 1 < data.length)]
      have h6 : data.length - 1 + 1 = data.length := by omega
      rw [h6, List.take_length]
    rw [hE]
    rw [h5] at h4
    exact h4

/-- C2: for every input list and integer threshold, if
`len(data) <= threshold` or `threshold < 3` the LTTB downsampler returns
its input unchanged; otherwise its output has length exactly `threshold`,
its first element equals `data[0]` and its last element equals
`data[-1]`. -/
theorem lttb_shape (data : List DataPoint) (threshold : ℤ) :
    (((data.length : ℤ) ≤ threshold ∨ threshold < 3) →
      downsample_lttb data threshold = data) ∧
    (3 ≤ threshold → threshold < (data.length : ℤ) →
      ((downsample_lttb data threshold).length : ℤ) = threshold ∧
      (downsample_lttb data threshold).head? = data.head? ∧
      (downsample_lttb data threshold).getLast? = data.getLast?) := by
  constructor
  · intro h
    rw [downsample_lttb, if_pos h]
  · intro h3 hlen
    obtain ⟨hl, hh, hg, _⟩ := downsample_lttb_spec_aux data threshold h3 hlen
    have hne : data ≠ [] := by
      intro hnil
      rw [hnil] at hlen
      simp at hlen
      omega
    refine ⟨?_, ?_, ?_⟩
    · rw [hl]; omega
    · rw [hh, head?_eq_getP data hne]
    · rw [hg, getLast?_eq_getP data hne]

/-- Witness for `lttb_shape`: the five-point sample downsampled to
threshold 3. -/
theorem lttb_shape_witness :
    (3 ≤ (3 : ℤ) ∧ (3 : ℤ) < (lttbSample.length : ℤ)) ∧
    ((downsample_lttb lttbSample 3).length : ℤ) = 3 ∧
    (downsample_lttb lttbSample 3).head? = lttbSample.head? ∧
    (downsample_lttb lttbSample 3).getLast? = lttbSample.getLast? :=
  ⟨⟨by decide, by decide⟩, (lttb_shape lttbSample 3).2 (by decide) (by decide)⟩

/-- C10: for `threshold >= 3` and `len(data) > threshold`, the LTTB output
is a subsequence of the input -- every output element is an input element
taken at a strictly increasing sequence of indices, so the algorithm never
emits a fabricated or averaged point, and all of its list indexing
(including the empty-bucket fallback index) stays in bounds. -/
theorem lttb_output_subsequence (data : List DataPoint) (threshold : ℤ)
    (h3 : 3 ≤ threshold) (hlen : threshold < (data.length : ℤ)) :
    (downsample_lttb data threshold).Sublist data :=
  (downsample_lttb_spec_aux data threshold h3 hlen).2.2.2

/-- Witness for `lttb_output_subsequence` on the five-point sample. -/
theorem lttb_output_subsequence_witness :
    3 ≤ (3 : ℤ) ∧ (3 : ℤ) < (lttbSample.length : ℤ) ∧
      (downsample_lttb lttbSample 3).Sublist lttbSample :=
  ⟨by decide, by decide,
    lttb_output_subsequence lttbSample 3 (by decide) (by decide)⟩

lemma mem_insertRowByTs (a r : Row) : ∀ (l : List Row),
    a ∈ insertRowByTs r l ↔ a = r ∨ a ∈ l
  | [] => by simp [insertRowByTs]
  | x :: xs => by
    rw [insertRowByTs]
    by_cases hc : r.timestamp ≤ x.timestamp
    · rw [if_pos hc]
      simp
    · rw [if_neg hc]
      simp only [List.mem_cons, mem_insertRowByTs a r xs]
      tauto

lemma mem_sortRowsByTs (a : Row) : ∀ (l : List Row),
    a ∈ sortRowsByTs l ↔ a ∈ l
  | [] => Iff.rfl
  | x :: xs => by
    rw [sortRowsByTs, mem_insertRowByTs]
    simp [mem_sortRowsByTs a xs]

lemma pairwise_insertRowByTs (r : Row) : ∀ (l : List Row),
    l.Pairwise (fun p q => p.timestamp ≤ q.timestamp) →
    (insertRowByTs r l).Pairwise fun p q => p.timestamp ≤ q.timestamp
  | [], _ => by simp [insertRowByTs]
  | x :: xs, h => by
    rw [insertRowByTs]
    rcases List.pairwise_cons.mp h with ⟨hx, hxs⟩
    by_cases hc : r.timestamp ≤ x.timestamp
    · rw [if_pos hc]
      refine List.pairwise_cons.mpr ⟨?_, h⟩
      intro y hy
      rcases List.mem_cons.mp hy with rfl | hy2
      · exact hc
      · exact le_trans hc (hx y hy2)
    · rw [if_neg hc]
      refine List.pairwise_cons.mpr ⟨?_, pairwise_insertRowByTs r xs hxs⟩
      intro y hy
      rcases (mem_insertRowByTs y r xs).mp hy with rfl | hy2
      · exact le_of_lt (lt_of_not_le hc)
      · exact hx y hy2

lemma pairwise_sortRowsByTs : ∀ l : List Row,
    (sortRowsByTs l).Pairwise fun p q => p.timestamp ≤ q.timestamp
  | [] => List.Pairwise.nil
  | x :: xs => pairwise_insertRowByTs x (sortRowsByTs xs)
      (pairwise_sortRowsByTs xs)

lemma foldl_min_le : ∀ (vs : List ℚ) (v : ℚ), vs.foldl min v ≤ v
  | [], v => le_refl v
  | x :: xs, v => le_trans (foldl_min_le xs (min v x)) (min_le_left v x)

lemma le_foldl_max : ∀ (vs : List ℚ) (v : ℚ), v ≤ vs.foldl max v
  | [], v => le_refl v
  | x :: xs, v => le_trans (le_max_left v x) (le_foldl_max xs (max v x))

lemma filterMap_value_nil_iff (lr : List Row)
    (h : ∀ x ∈ lr, x.value ≠ Option.none) :
    lr.filterMap (·.value) = [] ↔ lr = [] := by
  cases lr with
  | nil => simp
  | cons x xs =>
    simp only [List.filterMap_cons]
    cases hxv : x.value with
    | none => exact absurd hxv (h x (List.mem_cons_self x xs))
    | some q => simp

lemma query_minmax_none_iff (store : Store) (tid : String) (a b : ℚ) :
    query_minmax store tid a b = Option.none ↔
      ∀ r ∈ store, ¬ nonNullInRange tid a b r := by
  have hall : ∀ x ∈ store.filter (nonNullInRange tid a b ·),
      x.value ≠ Option.none := by
    intro x hx
    have h2 := (List.mem_filter.mp hx).2
    simp only [decide_eq_true_eq] at h2
    exact h2.2.2.2
  have hq : query_minmax store tid a b = Option.none ↔
      (store.filter (nonNullInRange tid a b ·)).filterMap (·.value) = [] := by
    simp only [query_minmax]
    cases hv : (store.filter (nonNullInRange tid a b ·)).filterMap (·.value) with
    | nil => simp
    | cons v vs => simp
  rw [hq, filterMap_value_nil_iff _ hall, List.filter_eq_nil_iff]
  simp

lemma query_minmax_le (store : Store) (tid : String) (a b mn mx : ℚ)
    (h : query_minmax store tid a b = some (mn, mx)) : mn ≤ mx := by
  simp only [query_minmax] at h
  cases hv : (store.filter (nonNullInRange tid a b ·)).filterMap (·.value) with
  | nil => rw [hv] at h; cases h
  | cons v vs =>
    rw [hv] at h
    simp only [Option.some.injEq, Prod.mk.injEq] at h
    rw [← h.1, ← h.2]
    exact le_trans (foldl_min_le vs v) (le_foldl_max vs v)

lemma oldest_is_first_nonnull (store : Store) (tid : String) (a b : ℚ)
    (hne : store.filter (nonNullInRange tid a b ·) ≠ []) :
    ∃ r ∈ store, nonNullInRange tid a b r ∧
      oldestVal store tid a b = r.value ∧
      ∀ r' ∈ store, nonNullInRange tid a b r' →
        r.timestamp ≤ r'.timestamp := by
  cases hL : sortRowsByTs (store.filter (nonNullInRange tid a b ·)) with
  | nil =>
    exfalso
    apply hne
    cases hF : store.filter (nonNullInRange tid a b ·) with
    | nil => rfl
    | cons x xs =>
      exfalso
      have : x ∈ sortRowsByTs (store.filter (nonNullInRange tid a b ·)) :=
        (mem_sortRowsByTs x _).mpr (by rw [hF]; exact List.mem_cons_self x xs)
      rw [hL] at this
      cases this
  | cons x xs =>
    have hxmem : x ∈ store.filter (nonNullInRange tid a b ·) := by
      have : x ∈ sortRowsByTs (store.filter (nonNullInRange tid a b ·)) := by
        rw [hL]; exact List.mem_cons_self x xs
      exact (mem_sortRowsByTs x _).mp this
    have hx2 := List.mem_filter.mp hxmem
    have hxP : nonNullInRange tid a b x := by
      have := hx2.2
      simpa using this
    refine ⟨x, hx2.1, hxP, ?_, ?_⟩
    · unfold oldestVal
      rw [hL]
      rfl
    · intro r' hr' hP'
      have hr'mem : r' ∈ sortRowsByTs (store.filter (nonNullInRange tid a b ·)) :=
        (mem_sortRowsByTs r' _).mpr
          (List.mem_filter.mpr ⟨hr', by simpa using hP'⟩)
      rw [hL] at hr'mem
      rcases List.mem_cons.mp hr'mem with rfl | hmem2
      · exact le_refl _
      · have hpw := pairwise_sortRowsByTs (store.filter (nonNullInRange tid a b ·))
        rw [hL] at hpw
        exact (List.pairwise_cons.mp hpw).1 r' hmem2

/-- C4: `query_minmax` ignores null rows, is absent exactly when the range
holds no non-null row, and when present satisfies `min <= max`; in
`query_minmax_batch` every returned entry's `oldest` field is the value of
the chronologically first (minimal-timestamp) non-null row of the range. -/
theorem query_minmax_spec :
    (∀ (store : Store) (tid : String) (a b : ℚ) (r : Row),
      r.value = Option.none →
      query_minmax (r :: store) tid a b = query_minmax store tid a b) ∧
    (∀ (store : Store) (tid : String) (a b : ℚ),
      query_minmax store tid a b = Option.none ↔
        ∀ r ∈ store, ¬ nonNullInRange tid a b r) ∧
    (∀ (store : Store) (tid : String) (a b mn mx : ℚ),
      query_minmax store tid a b = some (mn, mx) → mn ≤ mx) ∧
    (∀ (store : Store) (ids : List String) (a b : ℚ)
      (p : String × ℚ × ℚ × Option ℚ),
      p ∈ query_minmax_batch store ids a b →
      ∃ r ∈ store, nonNullInRange p.1 a b r ∧ p.2.2.2 = r.value ∧
        ∀ r' ∈ store, nonNullInRange p.1 a b r' →
          r.timestamp ≤ r'.timestamp) := by
  refine ⟨?_, query_minmax_none_iff, query_minmax_le, ?_⟩
  · intro store tid a b r hr
    unfold query_minmax
    rw [List.filter_cons_of_neg]
    simp [nonNullInRange, hr]
  · intro store ids a b p hp
    simp only [query_minmax_batch, List.mem_filterMap] at hp
    obtain ⟨ts_id, hts, hmatch⟩ := hp
    cases hq : query_minmax store ts_id a b with
    | none => rw [hq] at hmatch; cases hmatch
    | some mm =>
      obtain ⟨mn, mx⟩ := mm
      rw [hq] at hmatch
      simp only [Option.some.injEq] at hmatch
      have hfne : store.filter (nonNullInRange ts_id a b ·) ≠ [] := by
        intro hF
        have : query_minmax store ts_id a b = Option.none := by
          apply (query_minmax_none_iff store ts_id a b).mpr
          intro r hr hP
          have : r ∈ store.filter (nonNullInRange ts_id a b ·) :=
            List.mem_filter.mpr ⟨hr, by simpa using hP⟩
          rw [hF] at this
          cases this
        rw [hq] at this
        cases this
      obtain ⟨r, hrs, hrP, hrold, hrmin⟩ :=
        oldest_is_first_nonnull store ts_id a b hfne
      refine ⟨r, hrs, ?_, ?_, ?_⟩
      · rw [← hmatch]; exact hrP
      · rw [← hmatch]
        exact hrold.symm ▸ rfl
      · intro r' hr' hP'
        exact hrmin r' hr' (by rw [← hmatch] at hP'; exact hP')

/-- Witness for `query_minmax_spec` on the end-to-end fixture store. -/
theorem query_minmax_spec_witness :
    query_minmax wstore "s1" 0 2 = some (10, 12) ∧ (10 : ℚ) ≤ 12 :=
  ⟨by decide, query_minmax_spec.2.2.1 wstore "s1" 0 2 10 12 (by decide)⟩

/-- C5 (code bug): the conversion guard of `insert_datapoint` catches only
`TypeError` and `ValueError`, so while an unparseable string is coerced to
null and upserted as the code's comment promises, an int too large for a
Python float raises an uncaught `OverflowError` instead of being coerced:
the insert fails and nothing is written. -/
theorem insert_datapoint_overflow_raises :
    insert_datapoint [] "s" (PyVal.str Option.none) (some 0) 0 =
      Except.ok [⟨"s", 0, Option.none⟩] ∧
    insert_datapoint [] "s" (PyVal.int (Int.ofNat (2 ^ 1024))) (some 0) 0 =
      Except.error PyErr.overflowError := by
  constructor
  · rfl
  · have hge : ¬(Int.ofNat (2 ^ 1024)).natAbs < 2 ^ 1024 := by
      show ¬(2 ^ 1024 : ℕ) < 2 ^ 1024
      exact Nat.lt_irrefl _
    simp only [insert_datapoint, coerce_value, pyFloat, if_neg hge]

/-- C3 counterexample: `register_external_timeseries` itself performs no
built-in check: called directly with the built-in id `cpu_temperature` on
an empty registry, it does not signal any conflict -- it reports the
series as newly created and stores the metadata row. -/
theorem register_external_builtin_not_rejected :
    (get_timeseries "cpu_temperature").isSome = true ∧
    register_external_timeseries [] "cpu_temperature" "Fake" "" "External"
      [] "" Option.none =
      ([⟨"cpu_temperature", "Fake", "", "External", [], "", Option.none⟩],
       true) := by
  constructor
  · decide
  · rfl

/-- C3 (amended): the built-in-id conflict rejection is enforced by the
ingest endpoint, not by `register_external_timeseries` itself: a
fully-populated ingest request whose id is a built-in id is rejected with
the conflict error (a message distinct from the missing-field rejections)
and leaves the external registry and the store unchanged. -/
theorem ingest_rejects_builtin_conflict (ext : ExtTable) (store : Store)
    (req : IngestRequest) (now : ℚ) (i nm u : String) (v : PyVal)
    (hid : req.id = some i) (hne : i ≠ "") (hname : req.name = some nm)
    (hnm : nm ≠ "") (hunits : req.units = some u) (hvalue : req.value = some v)
    (hbuiltin : (get_timeseries i).isSome = true) :
    ingest_timeseries_data ext store req now =
      (ext, store, IngestResult.badRequest
        ("ID \"" ++ i ++ "\" conflicts with a built-in timeseries")) := by
  simp only [ingest_timeseries_data, hid, hname, hunits, hvalue,
    Option.getD_some]
  rw [if_neg hne, if_neg hnm, if_pos hbuiltin]

/-- Witness for `ingest_rejects_builtin_conflict`: ingesting under the
built-in id `cpu_temperature`. -/
theorem ingest_rejects_builtin_conflict_witness :
    ingest_timeseries_data [] []
      ⟨some "cpu_temperature", some "Garage CPU", some "°F",
        some (PyVal.float 1), Option.none, Option.none, Option.none,
        Option.none, Option.none⟩ 0 =
      ([], [], IngestResult.badRequest
        "ID \"cpu_temperature\" conflicts with a built-in timeseries") :=
  ingest_rejects_builtin_conflict [] [] _ 0 "cpu_temperature" "Garage CPU"
    "°F" (PyVal.float 1) rfl (by decide) rfl (by decide) rfl rfl (by decide)

/-- C9 counterexample: the batch data endpoint does not reject the unknown
id `no_such_series`: it answers with a successful empty list (no
not-found rejection), unlike the single-series endpoint, which returns
the explicit 404. -/
theorem batch_query_unknown_id_not_rejected :
    get_timeseries_data_batch [] [] ["no_such_series"] Option.none
      Option.none 1000 Option.none = [] ∧
    get_timeseries_data [] [] "no_such_series" Option.none Option.none 1000 =
      DataResponse.notFound := by
  constructor
  · decide
  · decide

/-- C9 (amended): for an id that is neither a built-in nor a registered
external series, the single-series endpoint returns the explicit 404
not-found rejection, while the batch endpoint silently omits the id from
its successful response (no entry carries that id) rather than rejecting
the request. -/
theorem unknown_id_query_behaviour (ext : ExtTable) (store : Store)
    (u : String) (hb : get_timeseries u = Option.none)
    (he : get_external_timeseries ext u = Option.none) :
    (∀ (s e : Option ℚ) (limit : ℤ),
      get_timeseries_data ext store u s e limit = DataResponse.notFound) ∧
    (∀ (ids : List String) (s e : Option ℚ) (limit : ℤ) (m : Option ℤ),
      ∀ entry ∈ get_timeseries_data_batch ext store ids s e limit m,
        entry.id ≠ u) := by
  constructor
  · intro s e limit
    simp [get_timeseries_data, hb, he]
  · intro ids s e limit m entry hentry hcontra
    simp only [get_timeseries_data_batch, List.mem_filterMap] at hentry
    obtain ⟨ts_id, hts, hmatch⟩ := hentry
    cases hq : get_timeseries ts_id with
    | some ts =>
      rw [hq] at hmatch
      simp only [Option.some.injEq] at hmatch
      rw [← hmatch] at hcontra
      have hid : ts_id = u := hcontra
      rw [hid, hb] at hq
      cases hq
    | none =>
      rw [hq] at hmatch
      cases hq2 : get_external_timeseries ext ts_id with
      | some ex =>
        rw [hq2] at hmatch
        simp only [Option.some.injEq] at hmatch
        rw [← hmatch] at hcontra
        have hid : ts_id = u := hcontra
        rw [hid, he] at hq2
        cases hq2
      | none =>
        rw [hq2] at hmatch
        cases hmatch

/-- Witness for `unknown_id_query_behaviour` on a fresh unknown id. -/
theorem unknown_id_query_behaviour_witness :
    get_timeseries_data [] [] "no_series_xyz" Option.none Option.none 1000 =
      DataResponse.notFound :=
  (unknown_id_query_behaviour [] [] "no_series_xyz" (by decide) rfl).1
    Option.none Option.none 1000

/-- C6: in the streaming state, a malformed (unparseable) line is skipped
with no effect on the rest of the epoch -- deleting it from the received
stream changes nothing, so it never tears down or re-establishes the
connection -- whereas a zero-length read (closed connection) ends the
epoch immediately without consuming further input; the run loop then
closes the socket, waits exactly the fixed `reconnect_delay`, and retries
from connecting. -/
theorem stream_malformed_skipped_closed_fatal :
    (∀ pre post : List RecvItem,
      subscribe_and_stream
          (pre ++ RecvItem.line LineContent.malformed :: post) =
        subscribe_and_stream (pre ++ post)) ∧
    (∀ rest : List RecvItem,
      subscribe_and_stream (RecvItem.closed :: rest) =
        ([], StreamExit.connClosed)) ∧
    (∀ (delay : ℚ) (items : List RecvItem) (rest : List (List RecvItem)),
      (subscribe_and_stream items).2 = StreamExit.connClosed →
      run_epochs delay (items :: rest) =
        RunEvent.connect ::
          ((subscribe_and_stream items).1.map RunEvent.dataBatch ++
            RunEvent.closeSocket :: RunEvent.waitReconnect delay ::
              run_epochs delay rest)) := by
  refine ⟨?_, fun rest => rfl, ?_⟩
  · intro pre post
    induction pre with
    | nil => simp [subscribe_and_stream]
    | cons x xs ih =>
      have ih2 : subscribe_and_stream
          (xs.append (RecvItem.line LineContent.malformed :: post)) =
          subscribe_and_stream (xs.append post) := ih
      cases x with
      | closed => simp [subscribe_and_stream]
      | line c =>
        cases c with
        | malformed =>
          simp only [List.cons_append, subscribe_and_stream]
          exact ih2
        | otherMsg =>
          simp only [List.cons_append, subscribe_and_stream]
          exact ih2
        | badTop => simp [subscribe_and_stream]
        | dataMsg rs =>
          simp only [List.cons_append, subscribe_and_stream]
          by_cases hr : rs.isEmpty
          · rw [if_pos hr, if_pos hr]
            exact ih2
          · rw [if_neg hr, if_neg hr, ih2]
  · intro delay items rest hexit
    simp only [run_epochs]
    rw [hexit]

/-- Witness for `stream_malformed_skipped_closed_fatal`: a one-item epoch
ending in a closed connection, followed by one further epoch. -/
theorem stream_reconnect_witness :
    (subscribe_and_stream [RecvItem.closed]).2 = StreamExit.connClosed ∧
    run_epochs 5 [[RecvItem.closed], []] =
      RunEvent.connect ::
        ((subscribe_and_stream [RecvItem.closed]).1.map RunEvent.dataBatch ++
          RunEvent.closeSocket :: RunEvent.waitReconnect 5 ::
            run_epochs 5 [[]]) :=
  ⟨rfl, stream_malformed_skipped_closed_fatal.2.2 5 [RecvItem.closed] [[]] rfl⟩

/-- C7 counterexample: a timer-collector cycle with two successful reads
issues one batch insert, but when the clock advances between the two
per-row `datetime.now()` calls inside `insert_datapoints_batch` (first
call returns 100, second 101), the two stored rows carry different
timestamps -- the cycle's datapoints do not
share one identical collection timestamp. -/
theorem collector_cycle_distinct_timestamps :
    insert_datapoints_batch []
      (collection_cycle_datapoints
        [("s1", ReadResult.returns (PyVal.float 1)),
         ("s2", ReadResult.returns (PyVal.float 2))])
      (fun k => if k = 0 then 100 else 101) =
      Except.ok [⟨"s1", 100, some 1⟩, ⟨"s2", 101, some 2⟩] ∧
    (100 : ℚ) ≠ 101 := by
  constructor
  · rfl
  · decide

lemma mem_upsertRow {r : Row} {store : Store} {tid : String} {ts : ℚ}
    {v : Option ℚ} (h : r ∈ upsertRow store tid ts v) :
    r ∈ store ∨ r = ⟨tid, ts, v⟩ := by
  rcases List.mem_append.mp h with h1 | h1
  · left
    exact (List.mem_filter.mp h1).1
  · right
    simpa using h1

lemma insert_batch_go_const_ts (c : ℚ) :
    ∀ (dps : List Datapoint) (k : ℕ) (store s' : Store),
      (∀ dp ∈ dps, dp.timestamp = Option.none) →
      insert_batch_go (fun _ => c) k store dps = .ok s' →
      ∀ r ∈ s', r ∈ store ∨ r.timestamp = c := by
  intro dps
  induction dps with
  | nil =>
    intro k store s' _ heq r hr
    simp only [insert_batch_go, Except.ok.injEq] at heq
    left
    exact heq ▸ hr
  | cons dp rest ih =>
    intro k store s' hts heq r hr
    rw [insert_batch_go] at heq
    cases hcv : coerce_value dp.value with
    | error e => rw [hcv] at heq; cases heq
    | ok fv =>
      rw [hcv] at heq
      have hdp : dp.timestamp = Option.none := hts dp (List.mem_cons_self dp rest)
      rcases ih (k + 1) _ s'
          (fun d hd => hts d (List.mem_cons_of_mem _ hd)) heq r hr with h | h
      · rcases mem_upsertRow h with h2 | h2
        · left; exact h2
        · right
          rw [h2, hdp]
          simp
      · right; exact h

lemma collection_cycle_ts_none (reads : List (String × ReadResult)) :
    ∀ dp ∈ collection_cycle_datapoints reads, dp.timestamp = Option.none := by
  intro dp hdp
  simp only [collection_cycle_datapoints, List.mem_filterMap] at hdp
  obtain ⟨⟨sid, rr⟩, _, hf⟩ := hdp
  cases rr with
  | raises => cases hf
  | returns v =>
    simp only [Option.some.injEq] at hf
    rw [← hf]

/-- C7 (amended): all successfully-read values of one timer cycle are
submitted as a single `insert_datapoints_batch` call and every datapoint
in the cycle's batch carries no source timestamp; each row is then
stamped inside `insert_datapoints_batch` by its own `datetime.now()`
call, so the cycle's rows share one identical collection timestamp only
when the clock yields the same value for every per-row call -- here
proved under a constant clock; under an advancing clock they can differ
(see the counterexample). -/
theorem collector_cycle_batch_shape (reads : List (String × ReadResult)) :
    (∀ dp ∈ collection_cycle_datapoints reads, dp.timestamp = Option.none) ∧
    (∀ (sid : String) (v : PyVal), (sid, ReadResult.returns v) ∈ reads →
      (⟨sid, v, Option.none⟩ : Datapoint) ∈
        collection_cycle_datapoints reads) ∧
    (∀ (c : ℚ) (store s' : Store),
      insert_datapoints_batch store (collection_cycle_datapoints reads)
        (fun _ => c) = Except.ok s' →
      ∀ r ∈ s', r ∈ store ∨ r.timestamp = c) := by
  refine ⟨collection_cycle_ts_none reads, ?_, ?_⟩
  · intro sid v hmem
    simp only [collection_cycle_datapoints, List.mem_filterMap]
    exact ⟨(sid, ReadResult.returns v), hmem, rfl⟩
  · intro c store s' heq r hr
    exact insert_batch_go_const_ts c (collection_cycle_datapoints reads) 0
      store s' (collection_cycle_ts_none reads) heq r hr

/-- Witness for `collector_cycle_batch_shape` on the concrete reads. -/
theorem collector_cycle_batch_shape_witness :
    ("cpu_temperature", ReadResult.returns (PyVal.float 100)) ∈ wreads ∧
    (⟨"cpu_temperature", PyVal.float 100, Option.none⟩ : Datapoint) ∈
      collection_cycle_datapoints wreads :=
  ⟨by decide, (collector_cycle_batch_shape wreads).2.1 "cpu_temperature"
    (PyVal.float 100) (by decide)⟩

/-- C8: the manual collect-now route performs one cycle in which every
series whose current read is null is omitted from the written batch (and
every batch entry carries the single shared timestamp computed up front),
while the timer-driven collector path keeps a null read as a null-valued
datapoint for the same situation (`coerce_value` stores it as SQL
`NULL`). -/
theorem collect_now_omits_nulls (reads : List (String × ReadResult))
    (timestamp : ℚ) :
    (∀ dp ∈ collect_now_datapoints reads timestamp,
      dp.value ≠ PyVal.none ∧ dp.timestamp = some timestamp) ∧
    (∀ (sid : String) (v : PyVal), (sid, ReadResult.returns v) ∈ reads →
      v ≠ PyVal.none →
      (⟨sid, v, some timestamp⟩ : Datapoint) ∈
        collect_now_datapoints reads timestamp) ∧
    (∀ sid : String, (sid, ReadResult.returns PyVal.none) ∈ reads →
      (⟨sid, PyVal.none, Option.none⟩ : Datapoint) ∈
        collection_cycle_datapoints reads) ∧
    coerce_value PyVal.none = Except.ok Option.none := by
  refine ⟨?_, ?_, ?_, rfl⟩
  · intro dp hdp
    simp only [collect_now_datapoints, List.mem_filterMap] at hdp
    obtain ⟨⟨sid, rr⟩, _, hf⟩ := hdp
    cases rr with
    | raises => cases hf
    | returns v =>
      simp only at hf
      by_cases hv : v = PyVal.none
      · rw [if_pos hv] at hf
        cases hf
      · rw [if_neg hv] at hf
        simp only [Option.some.injEq] at hf
        rw [← hf]
        exact ⟨hv, rfl⟩
  · intro sid v hmem hv
    simp only [collect_now_datapoints, List.mem_filterMap]
    refine ⟨(sid, ReadResult.returns v), hmem, ?_⟩
    simp only
    rw [if_neg hv]
  · intro sid hmem
    simp only [collection_cycle_datapoints, List.mem_filterMap]
    exact ⟨(sid, ReadResult.returns PyVal.none), hmem, rfl⟩

/-- Witness for `collect_now_omits_nulls` on the concrete reads: the null
read of `gpu_temperature` is stored by the timer path and omitted by the
manual path. -/
theorem collect_now_omits_nulls_witness :
    ("gpu_temperature", ReadResult.returns PyVal.none) ∈ wreads ∧
    (⟨"gpu_temperature", PyVal.none, Option.none⟩ : Datapoint) ∈
      collection_cycle_datapoints wreads ∧
    collect_now_datapoints wreads 5 =
      [⟨"cpu_temperature", PyVal.float 100, some 5⟩] :=
  ⟨by decide,
    (collect_now_omits_nulls wreads 5).2.2.1 "gpu_temperature" (by decide),
    by decide⟩
